import Mathlib

/-!
Shallow embedding of `rangeless::mt::synchronized_queue` (src/include/mt.hpp).

The queue state consists of `m_capacity` (with `0` meaning closed, cf. the
comment on mt.hpp line 610: `0 means closed`) together with the single
internal FIFO buffer `m_queue` (line 611).  Operations are modelled
sequentially (quiescently): while one thread is inside an operation no other
thread runs, so a timed `wait_for` on a condition variable returns the
current value of its predicate, and the `no_timeout_sentinel_t` wait returns
(with `true`) exactly when the predicate currently holds, and otherwise
never returns, which we model with `Option` (`none` = the call blocks
forever).  Thrown `queue_closed` exceptions are modelled with `Except Unit`
(`Except.error ()` = the exception).  Move-semantics of `try_push`'s
rvalue-reference argument are modelled by an extra result component:
`some v` means the caller still holds value `v` after the call, `none`
means the value was moved from.
-/

namespace Rangeless

/-- Embedding of `synchronized_queue_base::status` (mt.hpp line 152):
`enum class status { success, closed, timeout }`. -/
inductive Status where
  | success
  | closed
  | timeout
deriving DecidableEq

/-- State of `synchronized_queue<T>` (mt.hpp lines 610-611):
`m_capacity` (`0` means closed) and the single internal buffer `m_queue`.
The mutexes and condition variables carry no sequential state. -/
structure Queue (α : Type) where
  m_capacity : Nat
  m_queue : List α
deriving DecidableEq

variable {α : Type}

/-- Timeout argument of `try_push`/`try_pop`: a duration (`.ms n`, any
finite duration behaves alike in the quiescent model), or the
`no_timeout_sentinel_t` (mt.hpp line 546) used by the blocking push. -/
inductive Timeout where
  | ms (n : Nat)
  | noTimeoutSentinel
deriving DecidableEq

/-- Embedding of the constructor `synchronized_queue(size_t cap = 1024)`
(mt.hpp lines 221-223): `m_capacity = cap` and an empty buffer.  Note that
the constructor performs no adjustment of `cap` whatsoever. -/
def mk_queue (cap : Nat) : Queue α := ⟨cap, []⟩

/-- The constructor's default capacity argument (`size_t cap = 1024`). -/
def mk_queue_default : Queue α := mk_queue 1024

/-- Embedding of `capacity()` (mt.hpp lines 480-483): returns `m_capacity`. -/
def capacity (q : Queue α) : Nat := q.m_capacity

/-- Embedding of `closed()` (mt.hpp lines 485-488): returns `!m_capacity`. -/
def closed (q : Queue α) : Bool := decide (q.m_capacity = 0)

/-- Embedding of `approx_size()` (mt.hpp lines 475-478). -/
def approx_size (q : Queue α) : Nat := q.m_queue.length

/-- The wait predicate of `try_push` (mt.hpp lines 408-411):
`m_queue.size() < m_capacity || !m_capacity`. -/
def can_push_pred (q : Queue α) : Bool :=
  decide (q.m_queue.length < q.m_capacity) || decide (q.m_capacity = 0)

/-- The wait predicate of `try_pop` and of `x_blocking_pop` (mt.hpp lines
444-447 and 567-572): `!m_queue.empty() || !m_capacity`. -/
def can_pop_pred (q : Queue α) : Bool :=
  !q.m_queue.isEmpty || decide (q.m_capacity = 0)

/-- Embedding of `x_wait_until` (mt.hpp lines 549-560) under the sequential
semantics: the state cannot change while waiting, so the `wait_for` overload
returns the predicate's current value, and the `no_timeout_sentinel_t`
overload (which always returns `true` in the code) returns exactly when the
predicate currently holds, else the call never returns (`none`). -/
def x_wait_until (condition : Bool) : Timeout → Option Bool
  | .ms _ => some condition
  | .noTimeoutSentinel => if condition then some true else none

/-- Body of `try_push` after the wait returns (mt.hpp lines 414-432):
timeout if the wait failed; `closed` if `!m_capacity` (the value is not
moved from on these two paths); otherwise `m_queue.push(std::move(value))`
and `success` (only here is the value moved from). -/
def try_push_core (q : Queue α) (value : α) (ok : Bool) :
    Status × Queue α × Option α :=
  if !ok then (.timeout, q, some value)
  else if q.m_capacity = 0 then (.closed, q, some value)
  else (.success, ⟨q.m_capacity, q.m_queue ++ [value]⟩, none)

/-- Embedding of `try_push` (mt.hpp lines 393-433).  The third result
component is the caller's value after the call (`none` = moved from). -/
def try_push (q : Queue α) (value : α) (timeout : Timeout) :
    Option (Status × Queue α × Option α) :=
  (x_wait_until (can_push_pred q) timeout).map (try_push_core q value)

/-- Body of `try_pop` after the wait returns (mt.hpp lines 450-468):
timeout if the wait failed; on an empty buffer return `closed` (the code
reaches this branch only with `!m_capacity`; the empty-and-open case is
`assert(false)`, unreachable because the wait predicate held); otherwise
move the front element into the output argument and `success`. -/
def try_pop_core (q : Queue α) (value : α) (ok : Bool) :
    Status × Queue α × α :=
  if !ok then (.timeout, q, value)
  else
    match q.m_queue with
    | [] => (.closed, q, value)
    | v :: rest => (.success, ⟨q.m_capacity, rest⟩, v)

/-- Embedding of `try_pop` (mt.hpp lines 437-469).  The third result
component is the caller's output variable after the call. -/
def try_pop (q : Queue α) (value : α) (timeout : Timeout) :
    Option (Status × Queue α × α) :=
  (x_wait_until (can_pop_pred q) timeout).map (try_pop_core q value)

/-- Embedding of `x_blocking_pop` (mt.hpp lines 562-585): wait (with no
timeout) until `!m_queue.empty() || !m_capacity`; then throw `queue_closed`
if the buffer is empty, else pop and return the front element. -/
def x_blocking_pop (q : Queue α) : Option (Except Unit (α × Queue α)) :=
  (x_wait_until (can_pop_pred q) .noTimeoutSentinel).map fun _ =>
    match q.m_queue with
    | [] => .error ()
    | v :: rest => .ok (v, ⟨q.m_capacity, rest⟩)

/-- Embedding of the blocking push `push_t::operator()` (mt.hpp lines
285-316): `try_push(std::move(val), no_timeout_sentinel_t{})`, assert the
status is not `timeout`, and throw `queue_closed` when it is `closed`. -/
def push_op (q : Queue α) (value : α) : Option (Except Unit (Queue α)) :=
  (try_push q value .noTimeoutSentinel).map fun r =>
    match r.1 with
    | .closed => .error ()
    | _ => .ok r.2.1

/-- Embedding of `x_close` (mt.hpp lines 590-598): set `m_capacity = 0`
(under the queue mutex) and notify all waiters; the buffer is untouched. -/
def x_close (q : Queue α) : Queue α := ⟨0, q.m_queue⟩

/-- Embedding of `close_guard::~close_guard` (mt.hpp lines 508-513): if the
guard is still armed (its pointer was not `reset`), call `x_close`. -/
def close_guard_destroy (armed : Bool) (q : Queue α) : Queue α :=
  if armed then x_close q else q

/-- The result of `try_push` with any finite timeout, as a total function:
in the quiescent model, `x_wait_until` with a duration returns the current
value of `can_push_pred`. -/
def try_push_for (q : Queue α) (value : α) : Status × Queue α × Option α :=
  try_push_core q value (can_push_pred q)

/-- The result of `try_pop` with any finite timeout, as a total function. -/
def try_pop_for (q : Queue α) (value : α) : Status × Queue α × α :=
  try_pop_core q value (can_pop_pred q)

theorem try_push_ms (q : Queue α) (value : α) (t : Nat) :
    try_push q value (.ms t) = some (try_push_for q value) := rfl

theorem try_pop_ms (q : Queue α) (value : α) (t : Nat) :
    try_pop q value (.ms t) = some (try_pop_for q value) := rfl

/-- Run a sequence of `try_push` calls (finite timeouts) left to right,
collecting the returned statuses. -/
def push_all : Queue α → List α → Queue α × List Status
  | q, [] => (q, [])
  | q, v :: vs =>
    let r := try_push_for q v
    let rest := push_all r.2.1 vs
    (rest.1, r.1 :: rest.2)

/-- The last element of a list, or `out` when the list is empty; used to
track the caller's output variable across a run of pops. -/
def last_out (out : α) : List α → α
  | [] => out
  | v :: rest => last_out v rest

/-- Run `n` consecutive `try_pop` calls (finite timeouts), reusing a single
output variable (initially `out`).  Returns the final queue and output
variable, together with the per-call list of (status, output variable after
the call) pairs. -/
def pop_all : Queue α → α → Nat → (Queue α × α) × List (Status × α)
  | q, out, 0 => ((q, out), [])
  | q, out, n + 1 =>
    let r := try_pop_for q out
    let rest := pop_all r.2.1 r.2.2 n
    (rest.1, (r.1, r.2.2) :: rest.2)

/-- One queue API call, for stating how state evolves across an arbitrary
operation sequence.  The blocking `push`/`pop` mutate the state through the
very same code paths as `try_push`/`try_pop` (mt.hpp lines 306-307 and
562-585), so they are covered by the same constructors. -/
inductive Op (α : Type) where
  | push_call (v : α)
  | pop_call (out : α)
  | close_call

/-- State transition of a single call. -/
def apply_op (q : Queue α) : Op α → Queue α
  | .push_call v => (try_push_for q v).2.1
  | .pop_call out => (try_pop_for q out).2.1
  | .close_call => x_close q

/-- State after a sequence of calls. -/
def run_ops (q : Queue α) (ops : List (Op α)) : Queue α :=
  ops.foldl apply_op q

/-- Whether a sequence of calls contains a `close`. -/
def has_close : List (Op α) → Bool
  | [] => false
  | .close_call :: _ => true
  | _ :: rest => has_close rest

/-- Helper: on an open queue holding at least `m_capacity` elements, the
wait predicate of `try_push` is false, so any finite-timeout `try_push`
times out without touching the queue or the caller's value. -/
theorem try_push_full (q : Queue α) (v : α) (t : Nat)
    (hopen : q.m_capacity ≠ 0) (hfull : q.m_capacity ≤ q.m_queue.length) :
    try_push q v (.ms t) = some (.timeout, q, some v) := by
  have hpred : can_push_pred q = false := by
    simp [can_push_pred, hopen, Nat.not_lt.mpr hfull]
  simp [try_push, x_wait_until, try_push_core, hpred]

/-- Helper: a successful `try_push_for` appends the value to the buffer and
leaves the capacity unchanged. -/
theorem try_push_for_success (q : Queue α) (v : α)
    (h : (try_push_for q v).1 = Status.success) :
    try_push_for q v = (.success, ⟨q.m_capacity, q.m_queue ++ [v]⟩, none) := by
  unfold try_push_for try_push_core at h ⊢
  by_cases hp : can_push_pred q
  · by_cases hc : q.m_capacity = 0
    · simp [hp, hc] at h
    · simp [hp, hc]
  · simp [hp] at h

/-- Helper: `try_push_for` never changes the capacity. -/
theorem try_push_for_capacity (q : Queue α) (v : α) :
    (try_push_for q v).2.1.m_capacity = q.m_capacity := by
  unfold try_push_for try_push_core
  by_cases hp : can_push_pred q
  · by_cases hc : q.m_capacity = 0 <;> simp [hp, hc]
  · simp [hp]

/-- Helper: `try_pop_for` never changes the capacity. -/
theorem try_pop_for_capacity (q : Queue α) (out : α) :
    (try_pop_for q out).2.1.m_capacity = q.m_capacity := by
  unfold try_pop_for try_pop_core
  by_cases hp : can_pop_pred q
  · cases hq : q.m_queue <;> simp [hp, hq]
  · simp [hp]

/-- Helper: after running any call sequence, the capacity is `0` when the
sequence contains a `close`, and is unchanged otherwise. -/
theorem run_ops_capacity (ops : List (Op α)) (q : Queue α) :
    (run_ops q ops).m_capacity
      = if has_close ops = true then 0 else q.m_capacity := by
  induction ops generalizing q with
  | nil => simp [run_ops, has_close]
  | cons op rest ih =>
    cases op with
    | push_call v =>
      simp only [run_ops, List.foldl_cons, apply_op, has_close]
      rw [show (List.foldl apply_op (try_push_for q v).2.1 rest)
            = run_ops (try_push_for q v).2.1 rest from rfl,
          ih, try_push_for_capacity]
    | pop_call out =>
      simp only [run_ops, List.foldl_cons, apply_op, has_close]
      rw [show (List.foldl apply_op (try_pop_for q out).2.1 rest)
            = run_ops (try_pop_for q out).2.1 rest from rfl,
          ih, try_pop_for_capacity]
    | close_call =>
      simp only [run_ops, List.foldl_cons, apply_op, has_close, if_pos]
      rw [show (List.foldl apply_op (x_close q) rest)
            = run_ops (x_close q) rest from rfl, ih, x_close]
      by_cases h : has_close rest = true <;> simp [h]

/-- Helper: when every push in a run succeeded, the final state holds the
initial buffer followed by all pushed values, and the capacity is
unchanged. -/
theorem push_all_success_state (vs : List α) (q : Queue α)
    (h : (push_all q vs).2 = List.replicate vs.length Status.success) :
    (push_all q vs).1 = ⟨q.m_capacity, q.m_queue ++ vs⟩ := by
  induction vs generalizing q with
  | nil =>
    cases q
    simp [push_all]
  | cons v vs ih =>
    simp only [push_all, List.length_cons, List.replicate_succ,
      List.cons.injEq] at h
    obtain ⟨h1, h2⟩ := h
    have hr := try_push_for_success q v h1
    rw [hr] at h2
    have h2' : (push_all (⟨q.m_capacity, q.m_queue ++ [v]⟩ : Queue α) vs).2
        = List.replicate vs.length Status.success := by simpa using h2
    simp only [push_all, hr]
    simpa [List.append_assoc] using ih _ h2'

/-- Helper: popping exactly as many times as the buffer holds succeeds each
time, yields the buffered values front to back, and empties the buffer;
this holds whatever the capacity (in particular for a closed queue). -/
theorem pop_all_exact (l : List α) (cap : Nat) (out : α) :
    pop_all ⟨cap, l⟩ out l.length
      = ((⟨cap, []⟩, last_out out l), l.map fun v => (Status.success, v)) := by
  induction l generalizing out with
  | nil => simp [pop_all, last_out]
  | cons v rest ih =>
    have hstep : try_pop_for (⟨cap, v :: rest⟩ : Queue α) out
        = (.success, ⟨cap, rest⟩, v) := by
      simp [try_pop_for, try_pop_core, can_pop_pred]
    simp only [List.length_cons, pop_all, hstep, List.map_cons, last_out]
    rw [ih v]

/-- Helper: every `try_pop` on a closed empty queue returns `closed` and
changes nothing. -/
theorem pop_all_closed_empty (m : Nat) (out : α) :
    pop_all (⟨0, []⟩ : Queue α) out m
      = ((⟨0, []⟩, out), List.replicate m (Status.closed, out)) := by
  induction m with
  | zero => simp [pop_all]
  | succ n ih =>
    have hstep : try_pop_for (⟨0, []⟩ : Queue α) out
        = (.closed, ⟨0, []⟩, out) := by
      simp [try_pop_for, try_pop_core, can_pop_pred]
    simp only [pop_all, hstep, List.replicate_succ]
    rw [ih]

/-- Helper: splitting a run of pops. -/
theorem pop_all_add (n m : Nat) (q : Queue α) (out : α) :
    pop_all q out (n + m)
      = ((pop_all (pop_all q out n).1.1 (pop_all q out n).1.2 m).1,
         (pop_all q out n).2
           ++ (pop_all (pop_all q out n).1.1 (pop_all q out n).1.2 m).2) := by
  induction n generalizing q out with
  | zero => simp [pop_all]
  | succ k ih =>
    have hsucc : Nat.succ k + m = Nat.succ (k + m) := Nat.succ_add k m
    simp only [hsucc, pop_all, ih, List.cons_append]

/-- C3: on an open queue holding exactly `capacity` items (so the buffer
that `try_push` appends to is necessarily non-empty, `capacity ≥ 1`), a
finite-timeout `try_push` returns `timeout`, not `success`: the queue is
unchanged and the caller's value is not consumed. -/
theorem capacity_enforcement (q : Queue α) (v : α) (t : Nat)
    (hopen : q.m_capacity ≠ 0) (hfull : q.m_queue.length = q.m_capacity) :
    try_push q v (.ms t) = some (.timeout, q, some v) :=
  try_push_full q v t hopen (le_of_eq hfull.symm)

/-- Witness for C3: capacity 1, one buffered item, zero timeout. -/
theorem capacity_enforcement_witness :
    (⟨1, [0]⟩ : Queue Nat).m_capacity ≠ 0
    ∧ (⟨1, [0]⟩ : Queue Nat).m_queue.length = (⟨1, [0]⟩ : Queue Nat).m_capacity
    ∧ try_push (⟨1, [0]⟩ : Queue Nat) 5 (.ms 0)
        = some (.timeout, ⟨1, [0]⟩, some 5) :=
  ⟨by decide, by decide, capacity_enforcement ⟨1, [0]⟩ 5 0 (by decide) (by decide)⟩

/-- Counterexample for C4: the state with `capacity = 1` holding one item
has `size == capacity`, and the one buffered item sits in the buffer that
`try_pop` drains directly (the implementation's only buffer, hence the only
"pop side" it has); the claim predicts `try_push` succeeds here, but it
returns `timeout` and enqueues nothing: the code's wait predicate is just
`size < capacity || !capacity` (mt.hpp lines 408-411), with no
empty-push-buffer escape clause. -/
theorem push_at_capacity_cex :
    try_push (⟨1, [0]⟩ : Queue Nat) 7 (.ms 10)
        = some (.timeout, ⟨1, [0]⟩, some 7)
    ∧ try_push (⟨1, [0]⟩ : Queue Nat) 7 (.ms 10)
        ≠ some (.success, ⟨1, [0, 7]⟩, none) := by
  exact ⟨by decide, by decide⟩

/-- C4 amended: the implementation keeps a single buffer, so there is no
state in which buffered items "reside on the pop side" apart from the
buffer `try_push` fills; `try_push` with a finite timeout never succeeds at
`size ≥ capacity` on an open queue — it returns `timeout`, leaves the queue
unchanged and does not consume the value. -/
theorem no_push_at_or_above_capacity (q : Queue α) (v : α) (t : Nat)
    (hopen : q.m_capacity ≠ 0) (hfull : q.m_capacity ≤ q.m_queue.length) :
    try_push q v (.ms t) = some (.timeout, q, some v) :=
  try_push_full q v t hopen hfull

/-- Witness for the amended C4: capacity 1, two buffered items. -/
theorem no_push_at_or_above_capacity_witness :
    (⟨1, [3, 4]⟩ : Queue Nat).m_capacity ≠ 0
    ∧ (⟨1, [3, 4]⟩ : Queue Nat).m_capacity ≤ (⟨1, [3, 4]⟩ : Queue Nat).m_queue.length
    ∧ try_push (⟨1, [3, 4]⟩ : Queue Nat) 9 (.ms 2)
        = some (.timeout, ⟨1, [3, 4]⟩, some 9) :=
  ⟨by decide, by decide,
    no_push_at_or_above_capacity ⟨1, [3, 4]⟩ 9 2 (by decide) (by decide)⟩

/-- Counterexample for C5: the constructor stores the capacity argument
verbatim (mt.hpp lines 221-223), so a queue constructed with capacity 0 has
`capacity() == 0`, not 1; since `m_capacity == 0` encodes "closed" (line
610), such a queue reports `closed()` and refuses every push with status
`closed` — it is not open and cannot buffer any item. -/
theorem zero_capacity_cex :
    capacity (mk_queue 0 : Queue Nat) = 0
    ∧ capacity (mk_queue 0 : Queue Nat) ≠ 1
    ∧ closed (mk_queue 0 : Queue Nat) = true
    ∧ try_push (mk_queue 0 : Queue Nat) 7 (.ms 0)
        = some (.closed, mk_queue 0, some 7) := by
  exact ⟨by decide, by decide, by decide, by decide⟩

/-- C5 amended: constructing with capacity 0 yields a queue whose capacity
is 0, and capacity 0 is the implementation's "closed" encoding: the queue
is closed from the start and every `try_push` (any timeout) returns
`closed` without buffering the value.  No coercion of 0 to 1 takes place;
the constructor's only special capacity is its default argument, 1024. -/
theorem zero_capacity_closed (v : α) (t : Timeout) :
    capacity (mk_queue 0 : Queue α) = 0
    ∧ closed (mk_queue 0 : Queue α) = true
    ∧ try_push (mk_queue 0 : Queue α) v t = some (.closed, mk_queue 0, some v)
    ∧ capacity (mk_queue_default : Queue α) = 1024 := by
  refine ⟨rfl, rfl, ?_, rfl⟩
  cases t <;> rfl

/-- Counterexample for C6: `capacity()` does not stay at the value fixed at
construction — closing the queue drops it from 5 to 0, because `x_close`
implements closing precisely by writing `m_capacity = 0` (mt.hpp lines
590-598). -/
theorem capacity_decrease_cex :
    capacity (mk_queue 5 : Queue Nat) = 5
    ∧ capacity (x_close (mk_queue 5 : Queue Nat)) = 0 := by
  exact ⟨by decide, by decide⟩

/-- C6 amended: across every sequence of push/pop/close calls, `capacity()`
equals the construction value as long as no close occurred, and equals 0 as
soon as the sequence contains a close (and then stays 0, since pushes and
pops never change it): `m_capacity` is written only by `x_close`. -/
theorem capacity_after_ops (cap : Nat) (ops : List (Op α)) :
    capacity (run_ops (mk_queue cap) ops)
      = if has_close ops = true then 0 else cap :=
  run_ops_capacity ops (mk_queue cap)

/-- C10: closing is idempotent: `x_close` only writes `m_capacity = 0`, so
closing an already-closed queue is the identity, repeated closes (e.g. from
several destroyed `close_guard`s) equal one close, the buffered contents
are untouched, and the result always reports `closed()`. -/
theorem close_idempotent (q : Queue α) :
    x_close (x_close q) = x_close q
    ∧ (x_close q).m_queue = q.m_queue
    ∧ closed (x_close q) = true
    ∧ (closed q = true → x_close q = q)
    ∧ close_guard_destroy true (close_guard_destroy true q)
        = close_guard_destroy true q := by
  refine ⟨rfl, rfl, rfl, ?_, rfl⟩
  intro h
  cases q with
  | mk cap l =>
    have : cap = 0 := by simpa [closed] using h
    simp [x_close, this]

/-- Witness for C10 at a closed queue with one leftover item. -/
theorem close_idempotent_witness :
    x_close (⟨0, [3]⟩ : Queue Nat) = ⟨0, [3]⟩ :=
  (close_idempotent (⟨0, [3]⟩ : Queue Nat)).2.2.2.1 rfl

/-- C1 (FIFO): starting from a queue with an empty buffer, if a sequence of
`try_push` calls for `v1, …, vn` all returned `success` (the blocking push
enqueues through the identical code path, mt.hpp lines 306-307), with no
interleaved close, then `n` consecutive pops all return `success` and
deliver exactly `v1, …, vn` in push order. -/
theorem fifo_order (q0 : Queue α) (vs : List α) (out : α)
    (hempty : q0.m_queue = [])
    (hsucc : (push_all q0 vs).2 = List.replicate vs.length Status.success) :
    (pop_all (push_all q0 vs).1 out vs.length).2
      = vs.map fun v => (Status.success, v) := by
  have hstate := push_all_success_state vs q0 hsucc
  have hexact := pop_all_exact vs q0.m_capacity out
  rw [hstate, hempty]
  simp only [List.nil_append, hexact]

/-- Witness for C1: three pushes into a fresh capacity-3 queue, then three
pops, observing 10, 20, 30 in order. -/
theorem fifo_order_witness :
    (⟨3, []⟩ : Queue Nat).m_queue = []
    ∧ (push_all (⟨3, []⟩ : Queue Nat) [10, 20, 30]).2
        = List.replicate ([10, 20, 30] : List Nat).length Status.success
    ∧ (pop_all (push_all (⟨3, []⟩ : Queue Nat) [10, 20, 30]).1 0
          ([10, 20, 30] : List Nat).length).2
        = ([10, 20, 30] : List Nat).map fun v => (Status.success, v) :=
  ⟨rfl, by decide, fifo_order ⟨3, []⟩ [10, 20, 30] 0 rfl (by decide)⟩

/-- C2 (drain-then-fail): close a queue holding `k` buffered items; then of
the next `k + m` pops, the first `k` return `success` and deliver the `k`
items in push order, and the remaining `m` (i.e. the `(k+1)`-th and every
later call) return `closed`; the blocking pop on the drained queue throws
`queue_closed` (`Except.error ()`). -/
theorem drain_then_fail (q : Queue α) (out : α) (m : Nat) :
    pop_all (x_close q) out (q.m_queue.length + m)
      = ((⟨0, []⟩, last_out out q.m_queue),
         (q.m_queue.map fun v => (Status.success, v))
           ++ List.replicate m (Status.closed, last_out out q.m_queue))
    ∧ x_blocking_pop ((pop_all (x_close q) out (q.m_queue.length + m)).1.1)
        = some (.error ()) := by
  have hx : x_close q = (⟨0, q.m_queue⟩ : Queue α) := rfl
  have hexact := pop_all_exact q.m_queue 0 out
  have hfull : pop_all (x_close q) out (q.m_queue.length + m)
      = ((⟨0, []⟩, last_out out q.m_queue),
         (q.m_queue.map fun v => (Status.success, v))
           ++ List.replicate m (Status.closed, last_out out q.m_queue)) := by
    rw [hx, pop_all_add q.m_queue.length m, hexact]
    simp [pop_all_closed_empty]
  refine ⟨hfull, ?_⟩
  rw [hfull]
  rfl

/-- C7 (error signalling): a blocking push (`try_push` with
`no_timeout_sentinel_t`) never returns `timeout`; the blocking push throws
`queue_closed` exactly when `try_push` reports `closed`, i.e. exactly on a
closed queue; the blocking pop throws `queue_closed` exactly on a
closed-and-drained queue; and on those same states the `try_` family does
not throw but returns the status `closed` (any timeout), leaving queue and
caller values untouched. -/
theorem error_signalling (q : Queue α) (v out : α) (t : Timeout) :
    (∀ r, try_push q v .noTimeoutSentinel = some r → r.1 ≠ Status.timeout)
    ∧ (push_op q v = some (.error ()) ↔ q.m_capacity = 0)
    ∧ (x_blocking_pop q = some (.error ())
        ↔ (q.m_queue = [] ∧ q.m_capacity = 0))
    ∧ (q.m_capacity = 0 → try_push q v t = some (.closed, q, some v))
    ∧ (q.m_capacity = 0 ∧ q.m_queue = []
        → try_pop q out t = some (.closed, q, out)) := by
  refine ⟨?_, ?_, ?_, ?_, ?_⟩
  · intro r h
    unfold try_push x_wait_until at h
    by_cases hp : can_push_pred q = true
    · simp only [hp, if_pos, Option.map_some] at h
      have hcore := Option.some.inj h
      unfold try_push_core at hcore
      by_cases hc : q.m_capacity = 0
      · rw [← hcore]
        simp [hc]
      · rw [← hcore]
        simp [hc]
    · simp [hp] at h
  · by_cases hc : q.m_capacity = 0
    · have hp : can_push_pred q = true := by simp [can_push_pred, hc]
      simp [push_op, try_push, x_wait_until, try_push_core, hp, hc]
    · by_cases hlt : q.m_queue.length < q.m_capacity
      · have hp : can_push_pred q = true := by simp [can_push_pred, hlt]
        simp [push_op, try_push, x_wait_until, try_push_core, hp, hc]
      · have hp : can_push_pred q = false := by simp [can_push_pred, hlt, hc]
        simp [push_op, try_push, x_wait_until, hp, hc]
  · cases hq : q.m_queue with
    | nil =>
      by_cases hc : q.m_capacity = 0
      · have hp : can_pop_pred q = true := by simp [can_pop_pred, hc]
        simp [x_blocking_pop, x_wait_until, hp, hq, hc]
      · have hp : can_pop_pred q = false := by simp [can_pop_pred, hq, hc]
        simp [x_blocking_pop, x_wait_until, hp, hc]
    | cons w rest =>
      have hp : can_pop_pred q = true := by simp [can_pop_pred, hq]
      simp [x_blocking_pop, x_wait_until, hp, hq]
  · intro hc
    have hp : can_push_pred q = true := by simp [can_push_pred, hc]
    cases t <;> simp [try_push, x_wait_until, try_push_core, hp, hc]
  · rintro ⟨hc, hq⟩
    have hp : can_pop_pred q = true := by simp [can_pop_pred, hc]
    cases t <;> simp [try_pop, x_wait_until, try_pop_core, hp, hq]

/-- Witness for C7 at the closed empty queue. -/
theorem error_signalling_witness :
    Status.closed ≠ Status.timeout
    ∧ push_op (⟨0, []⟩ : Queue Nat) 1 = some (.error ())
    ∧ x_blocking_pop (⟨0, []⟩ : Queue Nat) = some (.error ())
    ∧ try_push (⟨0, []⟩ : Queue Nat) 1 (.ms 0) = some (.closed, ⟨0, []⟩, some 1)
    ∧ try_pop (⟨0, []⟩ : Queue Nat) 2 (.ms 0) = some (.closed, ⟨0, []⟩, 2) := by
  have h := error_signalling (⟨0, []⟩ : Queue Nat) 1 2 (.ms 0)
  exact ⟨h.1 (.closed, ⟨0, []⟩, some 1) rfl, h.2.1.mpr rfl,
    h.2.2.1.mpr ⟨rfl, rfl⟩, h.2.2.2.1 rfl, h.2.2.2.2 ⟨rfl, rfl⟩⟩

/-- C8: whenever `try_push` returns, the status is `success` exactly when
the caller's value was moved from; on `timeout` and `closed` the caller
retains the original value (usable for a retry) and the queue is
unchanged. -/
theorem move_only_on_success (q : Queue α) (v : α) (t : Timeout)
    (r : Status × Queue α × Option α)
    (h : try_push q v t = some r) :
    (r.1 = Status.success ↔ r.2.2 = none)
    ∧ (r.1 ≠ Status.success → r.2.2 = some v ∧ r.2.1 = q) := by
  unfold try_push at h
  rcases hw : x_wait_until (can_push_pred q) t with _ | ok
  · rw [hw] at h
    simp at h
  · rw [hw] at h
    simp only [Option.map_some'] at h
    have hcore := Option.some.inj h
    subst hcore
    cases ok with
    | false => simp [try_push_core]
    | true =>
      by_cases hc : q.m_capacity = 0
      · simp [try_push_core, hc]
      · simp [try_push_core, hc]

/-- Witness for C8: a successful push moves the value (`none` retained). -/
theorem move_only_on_success_witness :
    try_push (⟨1, []⟩ : Queue Nat) 3 (.ms 0) = some (.success, ⟨1, [3]⟩, none)
    ∧ ((Status.success = Status.success ↔ (none : Option Nat) = none)
        ∧ (Status.success ≠ Status.success
            → (none : Option Nat) = some 3 ∧ (⟨1, [3]⟩ : Queue Nat) = ⟨1, []⟩)) :=
  ⟨rfl, move_only_on_success (⟨1, []⟩ : Queue Nat) 3 (.ms 0)
    (.success, ⟨1, [3]⟩, none) rfl⟩

/-- C9: whenever `try_pop` returns with a status other than `success`, the
caller's output variable and the queue are both unchanged; on `success` the
popped value is the buffer's front element and only that element was
removed. -/
theorem pop_writes_only_on_success (q : Queue α) (out : α) (t : Timeout)
    (r : Status × Queue α × α)
    (h : try_pop q out t = some r) :
    (r.1 ≠ Status.success → r.2.2 = out ∧ r.2.1 = q)
    ∧ (r.1 = Status.success
        → q.m_queue = r.2.2 :: r.2.1.m_queue
          ∧ r.2.1.m_capacity = q.m_capacity) := by
  unfold try_pop at h
  rcases hw : x_wait_until (can_pop_pred q) t with _ | ok
  · rw [hw] at h
    simp at h
  · rw [hw] at h
    simp only [Option.map_some'] at h
    have hcore := Option.some.inj h
    subst hcore
    cases ok with
    | false => simp [try_pop_core]
    | true =>
      cases hq : q.m_queue with
      | nil => simp [try_pop_core, hq]
      | cons w rest => simp [try_pop_core, hq]

/-- Witness for C9: a timed-out pop leaves the output variable (5) and the
queue unchanged. -/
theorem pop_writes_only_on_success_witness :
    try_pop (⟨1, []⟩ : Queue Nat) 5 (.ms 0) = some (.timeout, ⟨1, []⟩, 5)
    ∧ ((Status.timeout ≠ Status.success
          → (5 : Nat) = 5 ∧ (⟨1, []⟩ : Queue Nat) = ⟨1, []⟩)
        ∧ (Status.timeout = Status.success
          → ([] : List Nat) = 5 :: [] ∧ (1 : Nat) = 1)) :=
  ⟨rfl, pop_writes_only_on_success (⟨1, []⟩ : Queue Nat) 5 (.ms 0)
    (.timeout, ⟨1, []⟩, 5) rfl⟩

end Rangeless
